import Mathlib

/-! jobly-express: authorization middleware and partial-update builder

A shallow embedding of `middleware/auth.js` and `routes/jobs.js`, together with
the partial-update statement builder exercised by `helpers/sql.test.js`.

JavaScript values are embedded as `JsVal`; truthiness, property lookup and
strict equality follow the language. A middleware is a function from the
continuation `next`, the request and `res.locals` to an `Outcome` that records
the final `res.locals`, every call made to `jwt.verify`, every call made to
`next` (with its argument) and the exception, if any, that leaves the function.
-/

namespace Jobly

/-! ## JavaScript values -/

/-- JavaScript values as far as the middleware can observe them. Arrays and
functions are objects; `nan` is the one number besides zero that is falsy. -/
inductive JsVal where
  | undefined : JsVal
  | null : JsVal
  | bool (b : Bool) : JsVal
  | num (n : Int) : JsVal
  | nan : JsVal
  | str (s : String) : JsVal
  | obj (props : List (String × JsVal)) : JsVal

/-- ToBoolean of the language: `undefined`, `null`, `false`, `0`, `NaN` and the
empty string are falsy, every other value is truthy. -/
def truthy : JsVal → Bool
  | .undefined => false
  | .null => false
  | .bool b => b
  | .num n => n != 0
  | .nan => false
  | .str s => s != ""
  | .obj _ => true

/-- Property read `v.key`. Reading a property of a primitive that does not
carry it gives `undefined` (the middleware only reads a property of a value it
has already found truthy, so `undefined`/`null` receivers do not occur). -/
def JsVal.getProp (v : JsVal) (key : String) : JsVal :=
  match v with
  | .obj props => (props.lookup key).getD .undefined
  | _ => .undefined

/-- Strict equality `a === b`. Primitives compare by value, `NaN` equals
nothing, and an object is equal only to itself by reference, which a value
read from a different container never is. -/
def strictEquals : JsVal → JsVal → Bool
  | .undefined, .undefined => true
  | .null, .null => true
  | .bool a, .bool b => a == b
  | .num a, .num b => a == b
  | .str a, .str b => a == b
  | _, _ => false

/-! ## Errors -/

/-- Values thrown or passed to `next`. The two classes of `expressError.js`
that the sources name keep the argument they were constructed with; anything
else (a `JsonWebTokenError`, a `TypeError`, whatever a continuation throws) is
`other`. -/
inductive Thrown where
  | UnauthorizedError (reason : Option String) : Thrown
  | BadRequestError (reason : Option String) : Thrown
  | other (description : String) : Thrown
  deriving DecidableEq, Repr

/-- Modelled from the spec: `expressError.js` is not among the sources. The
message of an `UnauthorizedError` is the reason it was constructed with, and
the default `"Unauthorized"` when it was constructed without one. -/
def unauthorizedMessage (reason : Option String) : String :=
  reason.getD "Unauthorized"

/-! ## Request, response state, continuation -/

/-- The part of `req.headers` the middleware reads. -/
structure Headers where
  authorization : Option String

/-- The request: `req.headers` (which the code allows to be missing) and the
route parameters `req.params`. -/
structure Request where
  headers : Option Headers
  params : List (String × String)

/-- The object `res.locals`: the `user` property, absent or holding a value,
and its other properties. -/
structure Locals where
  user : Option JsVal
  rest : List (String × JsVal)

/-- The read `res.locals.user`. -/
def Locals.readUser (l : Locals) : JsVal := l.user.getD .undefined

/-- The read `req.params.username`. -/
def Request.paramUsername (req : Request) : JsVal :=
  match req.params.lookup "username" with
  | some s => .str s
  | none => .undefined

/-- The continuation `next`. `next i arg` is how the call number `i` (counted
from zero within one middleware invocation) with argument `arg` ends: `none`
when it returns, `some e` when it throws `e`. -/
abbrev Continuation := Nat → Option Thrown → Option Thrown

/-- A continuation every call of which returns. -/
def returning : Continuation := fun _ _ => none

/-- The environment of `auth.js`: the configured `SECRET_KEY` and the function
`jwt.verify`, which returns the payload of an accepted token and throws
otherwise. -/
structure Env where
  SECRET_KEY : String
  verify : String → String → Except Thrown JsVal

/-- What one invocation of a middleware did. -/
structure Outcome where
  locals : Locals
  verifyCalls : List (String × String)
  nextCalls : List (Option Thrown)
  escaped : Option Thrown

/-! ## Header parsing -/

/-- White space removed by `String.prototype.trim`: the WhiteSpace and
LineTerminator code points of the language. -/
def isJsWhitespace (c : Char) : Bool :=
  let n := c.toNat
  n == 0x09 || n == 0x0A || n == 0x0B || n == 0x0C || n == 0x0D || n == 0x20
    || n == 0xA0 || n == 0x1680 || (0x2000 ≤ n && n ≤ 0x200A)
    || n == 0x2028 || n == 0x2029 || n == 0x202F || n == 0x205F
    || n == 0x3000 || n == 0xFEFF

/-- The method `trim` on the characters of a string. -/
def jsTrim (cs : List Char) : List Char :=
  ((cs.dropWhile isJsWhitespace).reverse.dropWhile isJsWhitespace).reverse

/-- Whether `/^[Bb]earer /` matches: first letter in either case, then the
literal characters `earer` and one space. -/
def matchesBearer (cs : List Char) : Bool :=
  match cs with
  | c :: tail => (c == 'B' || c == 'b') && "earer ".data.isPrefixOf tail
  | [] => false

/-- The call `replace(/^[Bb]earer /, "")`: the seven matched characters are
removed, a string that does not match is returned as it is. -/
def replaceBearer (cs : List Char) : List Char :=
  if matchesBearer cs then cs.drop 7 else cs

/-- The expression `authHeader.replace(/^[Bb]earer /, "").trim()`. -/
def extractToken (authHeader : String) : String :=
  String.mk (jsTrim (replaceBearer authHeader.data))

/-- The token as the header contract words it, for comparison with
`extractToken`: the prefix `"Bearer "` is recognised in any mix of upper and
lower case, removed, and the remainder trimmed. -/
def extractTokenAnyCase (authHeader : String) : String :=
  let cs := authHeader.data
  if (cs.take 7).map Char.toLower == "bearer ".data then String.mk (jsTrim (cs.drop 7))
  else String.mk (jsTrim cs)

/-! ## middleware/auth.js -/

/-- The expression `req.headers && req.headers.authorization`. -/
def Request.authHeader (req : Request) : Option String :=
  match req.headers with
  | some h => h.authorization
  | none => none

/-- The function `authenticateJWT`. -/
def authenticateJWT (env : Env) (next : Continuation) (req : Request) (locals : Locals) :
    Outcome :=
  match req.authHeader with
  | some authHeader =>
    if authHeader != "" then
      let token := extractToken authHeader
      match env.verify token env.SECRET_KEY with
      | .ok payload =>
        let locals1 : Locals := { locals with user := some payload }
        match next 0 none with
        | none => ⟨locals1, [(token, env.SECRET_KEY)], [none], none⟩
        | some _ => ⟨locals1, [(token, env.SECRET_KEY)], [none, none], next 1 none⟩
      | .error _ => ⟨locals, [(token, env.SECRET_KEY)], [none], next 0 none⟩
    else
      match next 0 none with
      | none => ⟨locals, [], [none], none⟩
      | some _ => ⟨locals, [], [none, none], next 1 none⟩
  | none =>
    match next 0 none with
    | none => ⟨locals, [], [none], none⟩
    | some _ => ⟨locals, [], [none, none], next 1 none⟩

/-- The function `ensureLoggedIn`: inside `try`, `throw new UnauthorizedError()`
when `!res.locals.user`, otherwise `return next()`; the `catch` block passes
whatever was thrown to `next`. -/
def ensureLoggedIn (next : Continuation) (_req : Request) (locals : Locals) : Outcome :=
  if !truthy locals.readUser then
    let err := Thrown.UnauthorizedError none
    ⟨locals, [], [some err], next 0 (some err)⟩
  else
    match next 0 none with
    | none => ⟨locals, [], [none], none⟩
    | some err => ⟨locals, [], [none, some err], next 1 (some err)⟩

/-- The function `ensureAdmin`. -/
def ensureAdmin (next : Continuation) (_req : Request) (locals : Locals) : Outcome :=
  if !truthy locals.readUser || !truthy (locals.readUser.getProp "isAdmin") then
    let err := Thrown.UnauthorizedError (some "Admin privileges required")
    ⟨locals, [], [some err], next 0 (some err)⟩
  else
    match next 0 none with
    | none => ⟨locals, [], [none], none⟩
    | some err => ⟨locals, [], [none, some err], next 1 (some err)⟩

/-- The function `ensureCorrectUser`. -/
def ensureCorrectUser (next : Continuation) (req : Request) (locals : Locals) : Outcome :=
  if !truthy locals.readUser
      || !strictEquals (locals.readUser.getProp "username") req.paramUsername then
    let err := Thrown.UnauthorizedError (some "Unauthorized: Access denied")
    ⟨locals, [], [some err], next 0 (some err)⟩
  else
    match next 0 none with
    | none => ⟨locals, [], [none], none⟩
    | some err => ⟨locals, [], [none, some err], next 1 (some err)⟩

/-- The states of the data model: `res.locals.user` holds a principal when it
is an object whose `username` is a string and whose `isAdmin` is a boolean,
the payload that `authenticateJWT` stores. -/
def isPrincipal : JsVal → Bool
  | .obj props =>
    (match props.lookup "username" with
      | some (.str _) => true
      | _ => false) &&
    (match props.lookup "isAdmin" with
      | some (.bool _) => true
      | _ => false)
  | _ => false

/-! ## routes/jobs.js -/

/-- The HTTP methods the router registers. -/
inductive Method where
  | GET | POST | PATCH | DELETE
  deriving DecidableEq, Repr

/-- The final handlers of the router, named after the call they make on the
`Job` model: `Job.create`, `Job.findAll`, `Job.get`, `Job.update`,
`Job.remove`. -/
inductive Handler where
  | create | findAll | get | update | remove
  deriving DecidableEq, Repr

/-- A function registered on a route: a middleware of `auth.js` that the
router imports, or the final handler. -/
inductive Layer where
  | ensureLoggedIn : Layer
  | ensureAdmin : Layer
  | handler (h : Handler) : Layer
  deriving DecidableEq, Repr

/-- A registration `router.METHOD(path, ...functions)`. -/
structure Route where
  method : Method
  path : String
  stack : List Layer

/-- The five registrations of `routes/jobs.js`, in source order. -/
def router : List Route :=
  [ ⟨.POST, "/", [.ensureAdmin, .handler .create]⟩,
    ⟨.GET, "/", [.handler .findAll]⟩,
    ⟨.GET, "/:id", [.handler .get]⟩,
    ⟨.PATCH, "/:id", [.ensureAdmin, .handler .update]⟩,
    ⟨.DELETE, "/:id", [.ensureAdmin, .handler .remove]⟩ ]

/-- The request as the handlers of `routes/jobs.js` read it: besides what the
middleware reads, `req.body` and `req.query`. -/
structure JobsRequest extends Request where
  body : JsVal
  query : JsVal

/-- The read `req.params.id`. -/
def Request.paramId (req : Request) : JsVal :=
  match req.params.lookup "id" with
  | some s => .str s
  | none => .undefined

/-- How an awaited call ends: the promise resolves with a value, rejects with
an error, or is still pending. -/
inductive Settled (α : Type) where
  | resolved (value : α) : Settled α
  | rejected (err : Thrown) : Settled α
  | pending : Settled α

/-- The model `Job` of `models/job.js`, which is not among the sources: the
five calls the handlers make are parameters. -/
structure JobModel where
  create : JsVal → Settled JsVal
  findAll : JsVal → Settled JsVal
  get : JsVal → Settled JsVal
  update : JsVal → JsVal → Settled JsVal
  remove : JsVal → Settled Unit

/-- A response sent with `res.status(..).json(..)`: the status (200 unless set)
and the properties of the body. -/
structure Response where
  status : Nat
  body : List (String × JsVal)

/-- How a request left a route: the handlers that were executed, the error
handed on to the error responder, if any, and the response sent, if any. -/
structure Dispatched where
  executed : List Handler
  error : Option Thrown
  response : Option Response

/-- The five handlers of `routes/jobs.js`. Each awaits its call on `Job` inside
`try`: when the call resolves the handler answers with `res.json`, when it
rejects the `catch` block hands the error on with `next(err)`, and while it is
pending nothing happens. -/
def runHandler (job : JobModel) (req : JobsRequest) : Handler → Dispatched
  | .create =>
    match job.create req.body with
    | .resolved j => ⟨[.create], none, some ⟨201, [("job", j)]⟩⟩
    | .rejected err => ⟨[.create], some err, none⟩
    | .pending => ⟨[.create], none, none⟩
  | .findAll =>
    match job.findAll req.query with
    | .resolved js => ⟨[.findAll], none, some ⟨200, [("jobs", js)]⟩⟩
    | .rejected err => ⟨[.findAll], some err, none⟩
    | .pending => ⟨[.findAll], none, none⟩
  | .get =>
    match job.get req.paramId with
    | .resolved j => ⟨[.get], none, some ⟨200, [("job", j)]⟩⟩
    | .rejected err => ⟨[.get], some err, none⟩
    | .pending => ⟨[.get], none, none⟩
  | .update =>
    match job.update req.paramId req.body with
    | .resolved j => ⟨[.update], none, some ⟨200, [("job", j)]⟩⟩
    | .rejected err => ⟨[.update], some err, none⟩
    | .pending => ⟨[.update], none, none⟩
  | .remove =>
    match job.remove req.paramId with
    | .resolved _ => ⟨[.remove], none, some ⟨200, [("deleted", req.paramId)]⟩⟩
    | .rejected err => ⟨[.remove], some err, none⟩
    | .pending => ⟨[.remove], none, none⟩

/-- The functions of a route are run in order, as Express does: a middleware
is called with a `next` that returns (Express catches what later functions
throw, and the handlers are `async`); when its first call of `next` carries no
error the following function runs, when it carries an error every following
function is skipped and the error goes to the error responder. The final
handler is executed as `runHandler` describes. -/
def runStack (job : JobModel) (req : JobsRequest) (locals : Locals) :
    List Layer → Dispatched
  | [] => ⟨[], none, none⟩
  | .handler h :: _ => runHandler job req h
  | .ensureLoggedIn :: layers =>
    let out := ensureLoggedIn returning req.toRequest locals
    match out.nextCalls.head? with
    | some none => runStack job req out.locals layers
    | some (some err) => ⟨[], some err, none⟩
    | none => ⟨[], none, none⟩
  | .ensureAdmin :: layers =>
    let out := ensureAdmin returning req.toRequest locals
    match out.nextCalls.head? with
    | some none => runStack job req out.locals layers
    | some (some err) => ⟨[], some err, none⟩
    | none => ⟨[], none, none⟩

/-- The route registered for a method and a path pattern is run; a request no
registration matches executes nothing. -/
def dispatch (job : JobModel) (method : Method) (path : String) (req : JobsRequest)
    (locals : Locals) : Dispatched :=
  match router.find? (fun r => r.method == method && r.path == path) with
  | some route => runStack job req locals route.stack
  | none => ⟨[], none, none⟩

/-! ## helpers/sql.js -/

/-- The fragment the builder returns: the text of the `SET` clause and the
values bound to its placeholders. -/
structure Fragment where
  setCols : String
  values : List JsVal

/-- Modelled from the spec: `helpers/sql.js` is not among the sources. The
column of a key is `jsToSql[key]`, and the key itself when the mapping has no
entry for it. -/
def columnName (jsToSql : List (String × String)) (key : String) : String :=
  (jsToSql.lookup key).getD key

/-- Modelled from the spec: `helpers/sql.js` is not among the sources. The
text emitted for a column at placeholder position `i`. -/
def assignment (column : String) (i : Nat) : String :=
  "\"" ++ column ++ "\"=$" ++ toString i

/-- Modelled from the spec: `helpers/sql.js` is not among the sources. Steps 2
to 4 of the builder: the entries of the payload are visited in insertion
order, the entry at position `i` emits its assignment and contributes its value. -/
def emitAssignments (jsToSql : List (String × String)) :
    Nat → List (String × JsVal) → List String × List JsVal
  | _, [] => ([], [])
  | i, (key, value) :: entries =>
    let (cols, vals) := emitAssignments jsToSql (i + 1) entries
    (assignment (columnName jsToSql key) i :: cols, value :: vals)

/-- Modelled from the spec: `helpers/sql.js` is not among the sources. The
builder `sqlForPartialUpdate`: a payload without entries is refused with a
`BadRequestError`; otherwise the assignments, numbered from 1, are joined
with `", "` and returned with the values in the same order. The payload is the
list of its entries in insertion order. -/
def sqlForPartialUpdate (dataToUpdate : List (String × JsVal))
    (jsToSql : List (String × String)) : Except Thrown Fragment :=
  if dataToUpdate.length = 0 then
    .error (.BadRequestError none)
  else
    let (cols, vals) := emitAssignments jsToSql 1 dataToUpdate
    .ok ⟨", ".intercalate cols, vals⟩

/-! ## Sample data -/

/-- A principal with the admin flag set. -/
def adminUser : JsVal := .obj [("username", .str "u1"), ("isAdmin", .bool true)]

/-- A principal without the admin flag. -/
def plainUser : JsVal := .obj [("username", .str "u2"), ("isAdmin", .bool false)]

/-- A request without an authorization header and without route parameters. -/
def anonymousRequest : Request := ⟨some ⟨none⟩, []⟩

/-- A request carrying the given authorization header. -/
def requestWithHeader (h : String) : Request := ⟨some ⟨some h⟩, []⟩

/-- The state `res.locals` of a fresh request. -/
def emptyLocals : Locals := ⟨none, []⟩

/-- An environment whose `jwt.verify` accepts exactly the token `"good"` under
the key `"k"` and throws on every other token. -/
def sampleEnv : Env :=
  { SECRET_KEY := "k"
    verify := fun token key =>
      if token == "good" && key == "k" then .ok adminUser
      else .error (.other "invalid token") }

/-- A request to the jobs router for the job `7`, without body or query. -/
def jobRequest : JobsRequest :=
  { headers := some ⟨none⟩, params := [("id", "7")], body := .undefined,
    query := .undefined }

/-- A `Job` model every call of which resolves, except `Job.remove`, which
rejects. -/
def sampleJob : JobModel :=
  { create := fun _ => .resolved .null
    findAll := fun _ => .resolved .null
    get := fun _ => .resolved .null
    update := fun _ _ => .resolved .null
    remove := fun _ => .rejected (.other "No job: 7") }

/-- A continuation every call of which throws. -/
def throwing : Continuation := fun _ _ => some (.other "boom")

/-! ## Auxiliary facts -/

theorem strictEquals_str_iff (v : JsVal) (s : String) :
    strictEquals v (.str s) = true ↔ v = .str s := by
  cases v <;> simp [strictEquals]

theorem extractToken_empty : extractToken "" = "" := by decide

theorem jsTrim_decompose (cs : List Char) :
    ∃ pre post, cs = pre ++ jsTrim cs ++ post ∧
      (∀ c ∈ pre, isJsWhitespace c = true) ∧ (∀ c ∈ post, isJsWhitespace c = true) := by
  refine ⟨cs.takeWhile isJsWhitespace,
    ((cs.dropWhile isJsWhitespace).reverse.takeWhile isJsWhitespace).reverse, ?_, ?_, ?_⟩
  · unfold jsTrim
    rw [List.append_assoc, ← List.reverse_append, List.takeWhile_append_dropWhile,
      List.reverse_reverse, List.takeWhile_append_dropWhile]
  · intro c hc
    exact List.mem_takeWhile_imp hc
  · intro c hc
    exact List.mem_takeWhile_imp (List.mem_reverse.mp hc)

theorem jsTrim_getLast (cs : List Char) (c : Char)
    (h : (jsTrim cs).getLast? = some c) : isJsWhitespace c = false := by
  unfold jsTrim at h
  rw [List.getLast?_reverse] at h
  have := List.head?_dropWhile_not isJsWhitespace (cs.dropWhile isJsWhitespace).reverse
  rw [h] at this
  exact this

theorem jsTrim_head (cs : List Char) (c : Char)
    (h : (jsTrim cs).head? = some c) : isJsWhitespace c = false := by
  have hm : cs.dropWhile isJsWhitespace = jsTrim cs ++
      ((cs.dropWhile isJsWhitespace).reverse.takeWhile isJsWhitespace).reverse := by
    unfold jsTrim
    rw [← List.reverse_append, List.takeWhile_append_dropWhile, List.reverse_reverse]
  have hd := List.head?_dropWhile_not isJsWhitespace cs
  rw [hm, List.head?_append, h] at hd
  exact hd

theorem matchesBearer_iff (cs : List Char) :
    matchesBearer cs = true ↔ ("Bearer ".data <+: cs ∨ "bearer ".data <+: cs) := by
  cases cs with
  | nil => simp [matchesBearer]
  | cons c tail =>
    have h1 : "Bearer ".data = 'B' :: "earer ".data := rfl
    have h2 : "bearer ".data = 'b' :: "earer ".data := rfl
    rw [h1, h2, List.cons_prefix_cons, List.cons_prefix_cons]
    simp only [matchesBearer, Bool.and_eq_true, Bool.or_eq_true, beq_iff_eq,
      List.isPrefixOf_iff_prefix]
    constructor
    · rintro ⟨h | h, ht⟩
      · exact Or.inl ⟨h.symm, ht⟩
      · exact Or.inr ⟨h.symm, ht⟩
    · rintro (⟨h, ht⟩ | ⟨h, ht⟩)
      · exact ⟨Or.inl h.symm, ht⟩
      · exact ⟨Or.inr h.symm, ht⟩
theorem emitAssignments_eq (jsToSql : List (String × String)) (i : Nat)
    (payload : List (String × JsVal)) :
    emitAssignments jsToSql i payload =
      (List.zipWith (fun entry j => assignment (columnName jsToSql entry.1) j) payload
        (List.range' i payload.length), payload.map Prod.snd) := by
  induction payload generalizing i with
  | nil => rfl
  | cons entry entries ih =>
    obtain ⟨key, value⟩ := entry
    simp [emitAssignments, ih, List.range'_succ]

theorem intercalate_go_data (acc sep : String) (l : List String) :
    acc.data <+: (String.intercalate.go acc sep l).data := by
  induction l generalizing acc with
  | nil => simp [String.intercalate.go]
  | cons a as ih =>
    simp only [String.intercalate.go]
    refine List.IsPrefix.trans ?_ (ih _)
    simp [String.data_append, List.append_assoc]

theorem assignment_ne_empty (column : String) (i : Nat) : assignment column i ≠ "" := by
  intro h
  have := congrArg String.data h
  simp [assignment, String.data_append] at this

/-- The guard of `ensureAdmin` in the terms of the language: the middleware
forwards with no error exactly when `res.locals.user` is truthy and its
`isAdmin` is truthy; in every other case its only call of `next` carries
`UnauthorizedError("Admin privileges required")`. -/
theorem ensureAdmin_forwards_iff_truthy (next : Continuation) (req : Request)
    (locals : Locals) :
    (none ∈ (ensureAdmin next req locals).nextCalls ↔
      (truthy locals.readUser = true ∧
        truthy (locals.readUser.getProp "isAdmin") = true)) ∧
    (¬ (truthy locals.readUser = true ∧
        truthy (locals.readUser.getProp "isAdmin") = true) →
      (ensureAdmin next req locals).nextCalls =
        [some (.UnauthorizedError (some "Admin privileges required"))]) ∧
    (∀ b : Bool, locals.readUser.getProp "isAdmin" = .bool b →
      (none ∈ (ensureAdmin next req locals).nextCalls ↔
        (truthy locals.readUser = true ∧ b = true))) ∧
    (ensureAdmin next req locals).locals = locals := by
  unfold ensureAdmin
  refine ⟨?_, ?_, ?_, ?_⟩
  · cases hu : truthy locals.readUser <;>
      cases ha : truthy (locals.readUser.getProp "isAdmin") <;>
      cases hn : next 0 none <;> simp
  · cases hu : truthy locals.readUser <;>
      cases ha : truthy (locals.readUser.getProp "isAdmin") <;>
      cases hn : next 0 none <;> simp
  · intro b hb
    rw [hb]
    cases hu : truthy locals.readUser <;> cases b <;>
      cases hn : next 0 none <;> simp [truthy]
  · cases hu : truthy locals.readUser <;>
      cases ha : truthy (locals.readUser.getProp "isAdmin") <;>
      cases hn : next 0 none <;> simp

/-- On a state of the data model, empty or holding a principal, the guard of
`ensureAdmin` passes exactly when a user is present and its `isAdmin` is
`true`. -/
theorem admin_guard_on_principal (locals : Locals)
    (hstate : locals.user = none ∨ ∃ u, locals.user = some u ∧ isPrincipal u = true) :
    (truthy locals.readUser = true ∧
        truthy (locals.readUser.getProp "isAdmin") = true) ↔
      (locals.user ≠ none ∧ locals.readUser.getProp "isAdmin" = .bool true) := by
  rcases hstate with h | ⟨u, hu, hp⟩
  · simp [Locals.readUser, h, truthy]
  · cases u with
    | obj props =>
      simp only [isPrincipal, Bool.and_eq_true] at hp
      obtain ⟨-, hadmin⟩ := hp
      cases hl : props.lookup "isAdmin" with
      | none => simp [hl] at hadmin
      | some v =>
        cases v with
        | bool b => cases b <;> simp [Locals.readUser, hu, JsVal.getProp, hl, truthy]
        | undefined => simp [hl] at hadmin
        | null => simp [hl] at hadmin
        | num n => simp [hl] at hadmin
        | nan => simp [hl] at hadmin
        | str t => simp [hl] at hadmin
        | obj ps => simp [hl] at hadmin
    | undefined => simp [isPrincipal] at hp
    | null => simp [isPrincipal] at hp
    | bool b => simp [isPrincipal] at hp
    | num n => simp [isPrincipal] at hp
    | nan => simp [isPrincipal] at hp
    | str t => simp [isPrincipal] at hp

/-! ## Theorems: middleware/auth.js -/

/-- C1: for every request state, empty or holding a principal, `ensureAdmin`
forwards to the next stage with no error if and only if `res.locals.user` is
present and its `isAdmin` is `true`; in every other case (no user, or a user
whose `isAdmin` is not `true`) its only call of `next` carries
`UnauthorizedError("Admin privileges required")`, and it does not forward
without an error. The state is left as it was. -/
theorem ensureAdmin_forwards_iff_admin (next : Continuation) (req : Request)
    (locals : Locals)
    (hstate : locals.user = none ∨ ∃ u, locals.user = some u ∧ isPrincipal u = true) :
    (none ∈ (ensureAdmin next req locals).nextCalls ↔
      (locals.user ≠ none ∧ locals.readUser.getProp "isAdmin" = .bool true)) ∧
    (¬ (locals.user ≠ none ∧ locals.readUser.getProp "isAdmin" = .bool true) →
      (ensureAdmin next req locals).nextCalls =
          [some (.UnauthorizedError (some "Admin privileges required"))] ∧
        none ∉ (ensureAdmin next req locals).nextCalls) ∧
    unauthorizedMessage (some "Admin privileges required") =
      "Admin privileges required" ∧
    (ensureAdmin next req locals).locals = locals := by
  have hguard := admin_guard_on_principal locals hstate
  have h := ensureAdmin_forwards_iff_truthy next req locals
  refine ⟨h.1.trans hguard, ?_, rfl, h.2.2.2⟩
  intro hn
  have hdeny := h.2.1 (fun ht => hn (hguard.mp ht))
  refine ⟨hdeny, ?_⟩
  rw [hdeny]
  simp

/-- Witness for C1: a principal that is not an admin is denied, an admin is
forwarded. -/
theorem ensureAdmin_forwards_iff_admin_witness :
    isPrincipal plainUser = true ∧ isPrincipal adminUser = true ∧
    (ensureAdmin returning anonymousRequest ⟨some plainUser, []⟩).nextCalls =
        [some (.UnauthorizedError (some "Admin privileges required"))] ∧
    none ∈ (ensureAdmin returning anonymousRequest ⟨some adminUser, []⟩).nextCalls :=
  ⟨rfl, rfl,
   ((ensureAdmin_forwards_iff_admin returning anonymousRequest ⟨some plainUser, []⟩
      (Or.inr ⟨plainUser, rfl, rfl⟩)).2.1 (by
        simp [Locals.readUser, plainUser, JsVal.getProp, List.lookup])).1,
   (ensureAdmin_forwards_iff_admin returning anonymousRequest ⟨some adminUser, []⟩
      (Or.inr ⟨adminUser, rfl, rfl⟩)).1.2 ⟨by simp, rfl⟩⟩

/-- C2: starting from a state whose `user` is unset, after `authenticateJWT`
the `user` property holds `payload` exactly when a non-empty authorization
header was sent and `jwt.verify` returned `payload` for the token extracted
from it under `SECRET_KEY` (and, `jwt.verify` rejecting the empty token, exactly
when a header was sent and its token verified); without a header, or when
verification throws, `res.locals` is what it was, so an invalid token leaves
the same state as no token. The other properties of `res.locals` are never
touched. -/
theorem authenticateJWT_user_set_iff_verified (env : Env) (next : Continuation)
    (req : Request) (locals : Locals) (hunset : locals.user = none) :
    (∀ payload, (authenticateJWT env next req locals).locals.user = some payload ↔
      ∃ h, req.authHeader = some h ∧ h ≠ "" ∧
        env.verify (extractToken h) env.SECRET_KEY = .ok payload) ∧
    ((∀ payload, env.verify "" env.SECRET_KEY ≠ .ok payload) →
      ∀ payload, (authenticateJWT env next req locals).locals.user = some payload ↔
        ∃ h, req.authHeader = some h ∧
          env.verify (extractToken h) env.SECRET_KEY = .ok payload) ∧
    (req.authHeader = none → (authenticateJWT env next req locals).locals = locals) ∧
    (∀ h e, req.authHeader = some h →
      env.verify (extractToken h) env.SECRET_KEY = .error e →
      (authenticateJWT env next req locals).locals = locals) ∧
    (∀ h e (req0 : Request), req.authHeader = some h →
      env.verify (extractToken h) env.SECRET_KEY = .error e →
      req0.authHeader = none →
      (authenticateJWT env next req locals).locals =
        (authenticateJWT env next req0 locals).locals) ∧
    (authenticateJWT env next req locals).locals.rest = locals.rest := by
  have key : ∀ payload,
      (authenticateJWT env next req locals).locals.user = some payload ↔
        ∃ h, req.authHeader = some h ∧ h ≠ "" ∧
          env.verify (extractToken h) env.SECRET_KEY = .ok payload := by
    intro payload
    unfold authenticateJWT
    cases hh : req.authHeader with
    | none => cases hn : next 0 none <;> simp [hunset]
    | some h =>
      by_cases he : h = ""
      · subst he
        cases hn : next 0 none <;> simp [hunset]
      · cases hv : env.verify (extractToken h) env.SECRET_KEY with
        | error e => simp [he, hv, hunset]
        | ok p => cases hn : next 0 none <;> simp [he, hv]
  have absent : ∀ r : Request, r.authHeader = none →
      (authenticateJWT env next r locals).locals = locals := by
    intro r hr
    unfold authenticateJWT
    rw [hr]
    cases hn : next 0 none <;> simp
  have failed : ∀ h e, req.authHeader = some h →
      env.verify (extractToken h) env.SECRET_KEY = .error e →
      (authenticateJWT env next req locals).locals = locals := by
    intro h e hh hv
    unfold authenticateJWT
    rw [hh]
    by_cases he : h = ""
    · subst he
      cases hn : next 0 none <;> simp
    · simp [he, hv]
  refine ⟨key, ?_, absent req, failed, ?_, ?_⟩
  · intro hempty payload
    rw [key payload]
    constructor
    · rintro ⟨h, hh, _, hv⟩
      exact ⟨h, hh, hv⟩
    · rintro ⟨h, hh, hv⟩
      refine ⟨h, hh, ?_, hv⟩
      intro he
      subst he
      rw [extractToken_empty] at hv
      exact hempty payload hv
  · intro h e req0 hh hv h0
    rw [failed h e hh hv, absent req0 h0]
  · unfold authenticateJWT
    cases hh : req.authHeader with
    | none => cases hn : next 0 none <;> simp
    | some h =>
      by_cases he : h = ""
      · subst he
        cases hn : next 0 none <;> simp
      · cases hv : env.verify (extractToken h) env.SECRET_KEY with
        | error e => simp [he, hv]
        | ok p => cases hn : next 0 none <;> simp [he, hv]

/-- Witness for C2: with the header `Bearer good` the verified payload is
stored, with the header `Bearer bad` the state of a fresh request is kept. -/
theorem authenticateJWT_user_set_iff_verified_witness :
    emptyLocals.user = none ∧
    (authenticateJWT sampleEnv returning (requestWithHeader "Bearer good")
      emptyLocals).locals.user = some adminUser ∧
    (authenticateJWT sampleEnv returning (requestWithHeader "Bearer bad")
      emptyLocals).locals = emptyLocals :=
  ⟨rfl,
   ((authenticateJWT_user_set_iff_verified sampleEnv returning
      (requestWithHeader "Bearer good") emptyLocals rfl).1 adminUser).2
      ⟨"Bearer good", rfl, by decide, rfl⟩,
   (authenticateJWT_user_set_iff_verified sampleEnv returning
      (requestWithHeader "Bearer bad") emptyLocals rfl).2.2.2.1
      "Bearer bad" (.other "invalid token") rfl rfl⟩

/-- C3: whatever the request, `authenticateJWT` calls `next`, every call it
makes carries no error, and what leaves the function is only ever what its
last call of `next` threw, never the exception of `jwt.verify`; with a
continuation that returns, `next` is called once with no argument and nothing
is thrown. -/
theorem authenticateJWT_never_passes_error (env : Env) (next : Continuation)
    (req : Request) (locals : Locals) :
    (authenticateJWT env next req locals).nextCalls ≠ [] ∧
    (∀ arg ∈ (authenticateJWT env next req locals).nextCalls, arg = none) ∧
    (authenticateJWT env next req locals).escaped =
      next ((authenticateJWT env next req locals).nextCalls.length - 1) none ∧
    (authenticateJWT env returning req locals).nextCalls = [none] ∧
    (authenticateJWT env returning req locals).escaped = none := by
  unfold authenticateJWT returning
  cases hh : req.authHeader with
  | none => cases hn : next 0 none <;> simp [hn]
  | some h =>
    by_cases he : h = ""
    · subst he
      cases hn : next 0 none <;> simp [hn]
    · cases hv : env.verify (extractToken h) env.SECRET_KEY with
      | error e => simp [he, hv]
      | ok p => cases hn : next 0 none <;> simp [he, hv, hn]

/-- C4: `ensureLoggedIn` forwards with no error exactly when `res.locals.user`
holds a (truthy) principal; otherwise, in particular when the state is empty,
its only call of `next` carries an `UnauthorizedError` constructed without a
reason, whose message is the default `"Unauthorized"`. A request without an
authorization header that has gone through `authenticateJWT` from a fresh state
is denied in this way. -/
theorem ensureLoggedIn_forwards_iff_principal (next : Continuation) (req : Request)
    (locals : Locals) :
    (none ∈ (ensureLoggedIn next req locals).nextCalls ↔
      truthy locals.readUser = true) ∧
    (truthy locals.readUser = false →
      (ensureLoggedIn next req locals).nextCalls = [some (.UnauthorizedError none)]) ∧
    (locals.user = none →
      (ensureLoggedIn next req locals).nextCalls = [some (.UnauthorizedError none)]) ∧
    unauthorizedMessage none = "Unauthorized" ∧
    (∀ (env : Env) (next0 : Continuation), req.authHeader = none →
      locals.user = none →
      (ensureLoggedIn next req (authenticateJWT env next0 req locals).locals).nextCalls
        = [some (.UnauthorizedError none)]) ∧
    (ensureLoggedIn next req locals).locals = locals := by
  have deny : ∀ l : Locals, truthy l.readUser = false →
      (ensureLoggedIn next req l).nextCalls = [some (.UnauthorizedError none)] := by
    intro l hl
    simp [ensureLoggedIn, hl]
  have unset : ∀ l : Locals, l.user = none → truthy l.readUser = false := by
    intro l hl
    simp [Locals.readUser, hl, truthy]
  refine ⟨?_, deny locals, fun h => deny locals (unset locals h), rfl, ?_, ?_⟩
  · unfold ensureLoggedIn
    cases hu : truthy locals.readUser <;> cases hn : next 0 none <;> simp
  · intro env next0 hh hl
    apply deny
    apply unset
    unfold authenticateJWT
    rw [hh]
    cases hn : next0 0 none <;> simp [hl]
  · unfold ensureLoggedIn
    cases hu : truthy locals.readUser <;> cases hn : next 0 none <;> simp

/-- Witness for C4: the anonymous request is denied after `authenticateJWT`,
and a request whose state holds a principal is forwarded. -/
theorem ensureLoggedIn_forwards_iff_principal_witness :
    (ensureLoggedIn returning anonymousRequest
      (authenticateJWT sampleEnv returning anonymousRequest emptyLocals).locals).nextCalls
        = [some (.UnauthorizedError none)] ∧
    none ∈ (ensureLoggedIn returning anonymousRequest ⟨some plainUser, []⟩).nextCalls :=
  ⟨(ensureLoggedIn_forwards_iff_principal returning anonymousRequest
      emptyLocals).2.2.2.2.1 sampleEnv returning rfl rfl,
   (ensureLoggedIn_forwards_iff_principal returning anonymousRequest
      ⟨some plainUser, []⟩).1.2 (by decide)⟩

/-- C5: `ensureCorrectUser` forwards with no error exactly when
`res.locals.user` is present (truthy) and its `username` is strictly equal to
`req.params.username`, which for a route parameter `s` means that the
`username` is the string `s`; otherwise its only call of `next` carries
`UnauthorizedError("Unauthorized: Access denied")`. -/
theorem ensureCorrectUser_forwards_iff_same_username (next : Continuation)
    (req : Request) (locals : Locals) :
    (none ∈ (ensureCorrectUser next req locals).nextCalls ↔
      (truthy locals.readUser = true ∧
        strictEquals (locals.readUser.getProp "username") req.paramUsername = true)) ∧
    (∀ s, req.params.lookup "username" = some s →
      (none ∈ (ensureCorrectUser next req locals).nextCalls ↔
        (truthy locals.readUser = true ∧
          locals.readUser.getProp "username" = .str s))) ∧
    (¬ (truthy locals.readUser = true ∧
        strictEquals (locals.readUser.getProp "username") req.paramUsername = true) →
      (ensureCorrectUser next req locals).nextCalls =
        [some (.UnauthorizedError (some "Unauthorized: Access denied"))]) ∧
    unauthorizedMessage (some "Unauthorized: Access denied") =
      "Unauthorized: Access denied" ∧
    (ensureCorrectUser next req locals).locals = locals := by
  have main : none ∈ (ensureCorrectUser next req locals).nextCalls ↔
      (truthy locals.readUser = true ∧
        strictEquals (locals.readUser.getProp "username") req.paramUsername = true) := by
    unfold ensureCorrectUser
    cases hu : truthy locals.readUser <;>
      cases hs : strictEquals (locals.readUser.getProp "username") req.paramUsername <;>
      cases hn : next 0 none <;> simp
  refine ⟨main, ?_, ?_, rfl, ?_⟩
  · intro s hs
    rw [main]
    have hp : req.paramUsername = .str s := by simp [Request.paramUsername, hs]
    rw [hp, strictEquals_str_iff]
  · unfold ensureCorrectUser
    cases hu : truthy locals.readUser <;>
      cases hs : strictEquals (locals.readUser.getProp "username") req.paramUsername <;>
      cases hn : next 0 none <;> simp
  · unfold ensureCorrectUser
    cases hu : truthy locals.readUser <;>
      cases hs : strictEquals (locals.readUser.getProp "username") req.paramUsername <;>
      cases hn : next 0 none <;> simp

/-- Witness for C5: the principal `u1` is forwarded on its own resource and
denied on the resource of `u2`. -/
theorem ensureCorrectUser_forwards_iff_same_username_witness :
    none ∈ (ensureCorrectUser returning ⟨none, [("username", "u1")]⟩
      ⟨some adminUser, []⟩).nextCalls ∧
    (ensureCorrectUser returning ⟨none, [("username", "u2")]⟩
      ⟨some adminUser, []⟩).nextCalls =
        [some (.UnauthorizedError (some "Unauthorized: Access denied"))] :=
  ⟨((ensureCorrectUser_forwards_iff_same_username returning
      ⟨none, [("username", "u1")]⟩ ⟨some adminUser, []⟩).2.1 "u1" rfl).2
      ⟨by decide, rfl⟩,
   (ensureCorrectUser_forwards_iff_same_username returning
      ⟨none, [("username", "u2")]⟩ ⟨some adminUser, []⟩).2.2.1 (by decide)⟩

/-- C6 (as amended): for a non-empty authorization header `h` the one token
handed to `jwt.verify` is `h` with a leading `"Bearer "` or `"bearer "` removed
(only the first letter may be in either case) and then trimmed of white space
at both ends; a header starting with neither is handed over trimmed and
otherwise unchanged. -/
theorem authenticateJWT_token_of_header (env : Env) (next : Continuation)
    (req : Request) (locals : Locals) (h : String)
    (hh : req.authHeader = some h) (hne : h ≠ "") :
    (authenticateJWT env next req locals).verifyCalls =
      [(extractToken h, env.SECRET_KEY)] ∧
    (∀ tail, (h.data = "Bearer ".data ++ tail ∨ h.data = "bearer ".data ++ tail) →
      (extractToken h).data = jsTrim tail) ∧
    (¬ "Bearer ".data <+: h.data → ¬ "bearer ".data <+: h.data →
      (extractToken h).data = jsTrim h.data) ∧
    (∃ pre post, replaceBearer h.data = pre ++ (extractToken h).data ++ post ∧
      (∀ c ∈ pre, isJsWhitespace c = true) ∧ (∀ c ∈ post, isJsWhitespace c = true)) ∧
    (∀ c, (extractToken h).data.head? = some c → isJsWhitespace c = false) ∧
    (∀ c, (extractToken h).data.getLast? = some c → isJsWhitespace c = false) := by
  refine ⟨?_, ?_, ?_, jsTrim_decompose _, jsTrim_head _, jsTrim_getLast _⟩
  · unfold authenticateJWT
    rw [hh]
    cases hv : env.verify (extractToken h) env.SECRET_KEY with
    | error e => simp [hne, hv]
    | ok p => cases hn : next 0 none <;> simp [hne, hv]
  · intro tail ht
    have hm : matchesBearer h.data = true := by
      rw [matchesBearer_iff]
      rcases ht with ht | ht
      · exact Or.inl ⟨tail, ht.symm⟩
      · exact Or.inr ⟨tail, ht.symm⟩
    have hd : h.data.drop 7 = tail := by
      rcases ht with ht | ht <;> rw [ht] <;> rfl
    simp [extractToken, replaceBearer, hm, hd]
  · intro h1 h2
    have hm : matchesBearer h.data = false := by
      rw [Bool.eq_false_iff, Ne, matchesBearer_iff]
      rintro (h | h)
      · exact h1 h
      · exact h2 h
    simp [extractToken, replaceBearer, hm]

/-- C6 (as stated) fails: the header `BEARER good` reaches `jwt.verify`
whole, although with the prefix matched in any case the token would be `good`;
the token is rejected and the request stays anonymous. -/
theorem authenticateJWT_uppercase_bearer_kept :
    (authenticateJWT sampleEnv returning (requestWithHeader "BEARER good")
      emptyLocals).verifyCalls = [("BEARER good", "k")] ∧
    extractTokenAnyCase "BEARER good" = "good" ∧
    (authenticateJWT sampleEnv returning (requestWithHeader "BEARER good")
      emptyLocals).locals.user = none ∧
    (authenticateJWT sampleEnv returning (requestWithHeader "bearer good")
      emptyLocals).locals.user = some adminUser := by
  refine ⟨by decide, by decide, rfl, rfl⟩

/-- Witness for C6: the header `Bearer good` followed by a blank hands the
token `good` to `jwt.verify`. -/
theorem authenticateJWT_token_of_header_witness :
    (authenticateJWT sampleEnv returning (requestWithHeader "Bearer good ")
      emptyLocals).verifyCalls = [("good", "k")] ∧
    (extractToken "Bearer good ").data = jsTrim "good ".data :=
  ⟨(authenticateJWT_token_of_header sampleEnv returning
      (requestWithHeader "Bearer good ") emptyLocals "Bearer good " rfl (by decide)).1,
   (authenticateJWT_token_of_header sampleEnv returning
      (requestWithHeader "Bearer good ") emptyLocals "Bearer good " rfl (by decide)).2.1
      "good ".data (Or.inl rfl)⟩

/-! ## Theorems: helpers/sql.js -/

/-- C7: for a non-empty payload with entries `(k1, v1) .. (kn, vn)` in insertion
order and any mapping, `sqlForPartialUpdate` returns as `setCols` the texts
`"<col_i>"=$<i>` for `i = 1..n` joined by `", "`, where `col_i` is the mapping
of `k_i` when it has one and `k_i` otherwise, and as `values` the list
`[v1, .., vn]`, of length `n`. -/
theorem sqlForPartialUpdate_fragment (payload : List (String × JsVal))
    (jsToSql : List (String × String)) (hne : payload ≠ []) :
    sqlForPartialUpdate payload jsToSql =
      .ok ⟨", ".intercalate
            (List.zipWith (fun entry i => "\"" ++ columnName jsToSql entry.1 ++ "\"=$"
                ++ toString i) payload (List.range' 1 payload.length)),
          payload.map Prod.snd⟩ ∧
    (payload.map Prod.snd).length = payload.length ∧
    (∀ key column, jsToSql.lookup key = some column →
      columnName jsToSql key = column) ∧
    (∀ key, jsToSql.lookup key = none → columnName jsToSql key = key) := by
  refine ⟨?_, by simp, ?_, ?_⟩
  · have hlen : payload.length ≠ 0 := by
      intro h
      exact hne (List.length_eq_zero.mp h)
    simp only [sqlForPartialUpdate, hlen, if_false, emitAssignments_eq]
    rfl
  · intro key column h
    simp [columnName, h]
  · intro key h
    simp [columnName, h]

/-- Witness for C7: the case of `sql.test.js`. -/
theorem sqlForPartialUpdate_fragment_witness :
    sqlForPartialUpdate [("firstName", .str "Aliya"), ("age", .num 32)]
        [("firstName", "first_name"), ("age", "age")] =
      .ok ⟨"\"first_name\"=$1, \"age\"=$2", [.str "Aliya", .num 32]⟩ :=
  (sqlForPartialUpdate_fragment [("firstName", .str "Aliya"), ("age", .num 32)]
    [("firstName", "first_name"), ("age", "age")] (by simp)).1

/-- C8: for every mapping, the empty one included, `sqlForPartialUpdate` on a
payload without entries fails with a `BadRequestError` and returns no
fragment; and a fragment it does return never has an empty `SET` clause or an
empty list of values. -/
theorem sqlForPartialUpdate_empty_payload (jsToSql : List (String × String)) :
    sqlForPartialUpdate [] jsToSql = .error (.BadRequestError none) ∧
    sqlForPartialUpdate [] [] = .error (.BadRequestError none) ∧
    (∀ frag, sqlForPartialUpdate [] jsToSql ≠ .ok frag) ∧
    (∀ payload frag, sqlForPartialUpdate payload jsToSql = .ok frag →
      payload ≠ [] ∧ frag.setCols ≠ "" ∧ frag.values ≠ []) := by
  refine ⟨rfl, rfl, ?_, ?_⟩
  · intro frag h
    simp [sqlForPartialUpdate] at h
  · intro payload frag h
    cases payload with
    | nil => simp [sqlForPartialUpdate] at h
    | cons entry entries =>
      obtain ⟨key, value⟩ := entry
      simp only [sqlForPartialUpdate, emitAssignments_eq, List.length_cons,
        Nat.add_one_ne_zero, if_false, List.range'_succ, List.zipWith_cons_cons,
        List.map_cons, Except.ok.injEq] at h
      subst h
      refine ⟨by simp, ?_, by simp⟩
      intro hempty
      have hp := intercalate_go_data (assignment (columnName jsToSql key) 1) ", "
        (List.zipWith (fun entry j => assignment (columnName jsToSql entry.1) j) entries
          (List.range' (1 + 1) entries.length))
      have hd := congrArg String.data hempty
      simp only [String.intercalate] at hd
      rw [hd] at hp
      simp [assignment, String.data_append] at hp

/-- Witness for C8: a payload with one entry yields a fragment, and that
fragment has a clause and a value. -/
theorem sqlForPartialUpdate_empty_payload_witness :
    sqlForPartialUpdate [("age", .num 32)] [] = .ok ⟨"\"age\"=$1", [.num 32]⟩ ∧
    ("\"age\"=$1" : String) ≠ "" :=
  ⟨rfl, ((sqlForPartialUpdate_empty_payload []).2.2.2 [("age", .num 32)]
    ⟨"\"age\"=$1", [.num 32]⟩ rfl).2.1⟩

/-! ## Theorems: routes/jobs.js -/

/-- C9: on the jobs router `POST /`, `PATCH /:id` and `DELETE /:id` run
`ensureAdmin` before their handler. For every request whose `res.locals.user`
is absent or is not an admin, none of `Job.create`, `Job.update`, `Job.remove`
is executed and the request ends with the `UnauthorizedError` of
`ensureAdmin`; for an admin principal the handler is reached: it is executed,
and the request ends as the handler ends it, a rejected call on `Job` going to
the error responder. -/
theorem jobs_admin_routes_guarded (job : JobModel) (req : JobsRequest)
    (locals : Locals) :
    (router.map (fun r => (r.method, r.path, r.stack))).filter
        (fun r => r.2.2.head? = some Layer.ensureAdmin) =
      [ (.POST, "/", [.ensureAdmin, .handler .create]),
        (.PATCH, "/:id", [.ensureAdmin, .handler .update]),
        (.DELETE, "/:id", [.ensureAdmin, .handler .remove]) ] ∧
    (¬ (truthy locals.readUser = true ∧
        truthy (locals.readUser.getProp "isAdmin") = true) →
      dispatch job .POST "/" req locals =
        ⟨[], some (.UnauthorizedError (some "Admin privileges required")), none⟩ ∧
      dispatch job .PATCH "/:id" req locals =
        ⟨[], some (.UnauthorizedError (some "Admin privileges required")), none⟩ ∧
      dispatch job .DELETE "/:id" req locals =
        ⟨[], some (.UnauthorizedError (some "Admin privileges required")), none⟩) ∧
    ((truthy locals.readUser = true ∧
        truthy (locals.readUser.getProp "isAdmin") = true) →
      (dispatch job .POST "/" req locals = runHandler job req .create ∧
        (dispatch job .POST "/" req locals).executed = [.create]) ∧
      (dispatch job .PATCH "/:id" req locals = runHandler job req .update ∧
        (dispatch job .PATCH "/:id" req locals).executed = [.update]) ∧
      (dispatch job .DELETE "/:id" req locals = runHandler job req .remove ∧
        (dispatch job .DELETE "/:id" req locals).executed = [.remove]) ∧
      (∀ err, job.create req.body = .rejected err →
        (dispatch job .POST "/" req locals).error = some err) ∧
      (∀ err, job.update req.paramId req.body = .rejected err →
        (dispatch job .PATCH "/:id" req locals).error = some err) ∧
      (∀ err, job.remove req.paramId = .rejected err →
        (dispatch job .DELETE "/:id" req locals).error = some err)) := by
  have hpost : dispatch job .POST "/" req locals =
      runStack job req locals [.ensureAdmin, .handler .create] := rfl
  have hpatch : dispatch job .PATCH "/:id" req locals =
      runStack job req locals [.ensureAdmin, .handler .update] := rfl
  have hdelete : dispatch job .DELETE "/:id" req locals =
      runStack job req locals [.ensureAdmin, .handler .remove] := rfl
  refine ⟨by decide, ?_, ?_⟩
  · intro h
    rw [hpost, hpatch, hdelete]
    cases hu : truthy locals.readUser <;>
      cases ha : truthy (locals.readUser.getProp "isAdmin") <;>
      simp_all [runStack, ensureAdmin, returning]
  · rintro ⟨hu, ha⟩
    rw [hpost, hpatch, hdelete]
    have hrun : ∀ h : Handler, runStack job req locals [.ensureAdmin, .handler h] =
        runHandler job req h := by
      intro h
      simp [runStack, ensureAdmin, returning, hu, ha]
    have hexec : ∀ h : Handler, (runHandler job req h).executed = [h] := by
      intro h
      cases h <;> simp only [runHandler] <;> split <;> rfl
    rw [hrun, hrun, hrun]
    refine ⟨⟨rfl, hexec _⟩, ⟨rfl, hexec _⟩, ⟨rfl, hexec _⟩, ?_, ?_, ?_⟩
    · intro err he
      simp [runHandler, he]
    · intro err he
      simp [runHandler, he]
    · intro err he
      simp [runHandler, he]

/-- Witness for C9: an anonymous `DELETE /:id` ends with the error of
`ensureAdmin` and runs nothing; the same request from an admin reaches
`Job.remove`, whose rejection goes to the error responder. -/
theorem jobs_admin_routes_guarded_witness :
    dispatch sampleJob .DELETE "/:id" jobRequest emptyLocals =
      ⟨[], some (.UnauthorizedError (some "Admin privileges required")), none⟩ ∧
    (dispatch sampleJob .DELETE "/:id" jobRequest ⟨some adminUser, []⟩).executed =
      [.remove] ∧
    (dispatch sampleJob .DELETE "/:id" jobRequest ⟨some adminUser, []⟩).error =
      some (.other "No job: 7") :=
  ⟨((jobs_admin_routes_guarded sampleJob jobRequest emptyLocals).2.1 (by decide)).2.2,
   ((jobs_admin_routes_guarded sampleJob jobRequest ⟨some adminUser, []⟩).2.2
      (by decide)).2.2.1.2,
   ((jobs_admin_routes_guarded sampleJob jobRequest ⟨some adminUser, []⟩).2.2
      (by decide)).2.2.2.2.2 (.other "No job: 7") rfl⟩

/-! ## Theorems: calls of `next` -/

/-- C10 (as amended): when the call of `next` made inside the `try` block
returns, each of `authenticateJWT`, `ensureLoggedIn`, `ensureAdmin` and
`ensureCorrectUser` calls `next` exactly once, and a policy middleware that
forwarded without an error passes no error to `next`. -/
theorem stages_call_next_once_when_next_returns (env : Env) (next : Continuation)
    (req : Request) (locals : Locals) (hret : next 0 none = none) :
    (authenticateJWT env next req locals).nextCalls = [none] ∧
    (ensureLoggedIn next req locals).nextCalls.length = 1 ∧
    (ensureAdmin next req locals).nextCalls.length = 1 ∧
    (ensureCorrectUser next req locals).nextCalls.length = 1 ∧
    (none ∈ (ensureLoggedIn next req locals).nextCalls →
      (ensureLoggedIn next req locals).nextCalls = [none]) ∧
    (none ∈ (ensureAdmin next req locals).nextCalls →
      (ensureAdmin next req locals).nextCalls = [none]) ∧
    (none ∈ (ensureCorrectUser next req locals).nextCalls →
      (ensureCorrectUser next req locals).nextCalls = [none]) := by
  refine ⟨?_, ?_, ?_, ?_, ?_, ?_, ?_⟩
  · unfold authenticateJWT
    cases hh : req.authHeader with
    | none => simp [hret]
    | some h =>
      by_cases he : h = ""
      · subst he
        simp [hret]
      · cases hv : env.verify (extractToken h) env.SECRET_KEY <;> simp [he, hv, hret]
  · unfold ensureLoggedIn
    cases hu : truthy locals.readUser <;> simp [hret]
  · unfold ensureAdmin
    cases hu : truthy locals.readUser <;>
      cases ha : truthy (locals.readUser.getProp "isAdmin") <;> simp [hret]
  · unfold ensureCorrectUser
    cases hu : truthy locals.readUser <;>
      cases hs : strictEquals (locals.readUser.getProp "username") req.paramUsername <;>
      simp [hret]
  · unfold ensureLoggedIn
    cases hu : truthy locals.readUser <;> simp [hret]
  · unfold ensureAdmin
    cases hu : truthy locals.readUser <;>
      cases ha : truthy (locals.readUser.getProp "isAdmin") <;> simp [hret]
  · unfold ensureCorrectUser
    cases hu : truthy locals.readUser <;>
      cases hs : strictEquals (locals.readUser.getProp "username") req.paramUsername <;>
      simp [hret]

/-- C10 (as stated) fails: when the call of `next` inside the `try` block
throws, the `catch` block calls `next` again. `authenticateJWT` calls it twice
without an argument, and each policy middleware, having forwarded an admin
principal without an error, then passes the thrown exception to `next`. -/
theorem stages_call_next_twice_when_next_throws :
    (authenticateJWT sampleEnv throwing anonymousRequest emptyLocals).nextCalls
      = [none, none] ∧
    (ensureLoggedIn throwing anonymousRequest ⟨some adminUser, []⟩).nextCalls
      = [none, some (.other "boom")] ∧
    (ensureAdmin throwing anonymousRequest ⟨some adminUser, []⟩).nextCalls
      = [none, some (.other "boom")] ∧
    (ensureCorrectUser throwing ⟨none, [("username", "u1")]⟩
      ⟨some adminUser, []⟩).nextCalls = [none, some (.other "boom")] := by
  refine ⟨by decide, by decide, by decide, by decide⟩

/-- Witness for C10: with a continuation that returns, an admin request is
forwarded by `ensureAdmin` with a single call of `next`. -/
theorem stages_call_next_once_when_next_returns_witness :
    returning 0 none = none ∧
    (ensureAdmin returning anonymousRequest ⟨some adminUser, []⟩).nextCalls = [none] :=
  ⟨rfl, (stages_call_next_once_when_next_returns sampleEnv returning anonymousRequest
    ⟨some adminUser, []⟩ rfl).2.2.2.2.2.1 (by decide)⟩

end Jobly
